import Mathlib

/-!
# Verification of the chef-booking backend core

Shallow embedding of the reservation / payment-reconciliation core of
`server.js` (current version: the section of the file spanning the Stripe
webhook, availability, quote, booking intake, admin and pop-up routes).
Timestamps are modelled at day granularity as `Nat` day indices: every date
written by the program is a UTC midnight (`T00:00:00.000Z`) and every range
is the half-open day range `[d, d+1)`, so the day-index model is exact.
Money is in integer minor units (cents) exactly as stored.
-/

/-- JavaScript `a || b` on strings: first operand unless it is falsy (empty). -/
def jsOr (a b : String) : String := if a = "" then b else a

/-- `Math.round(s * 0.30)` for a natural amount `s`, modelled as exact
rational rounding half-up: `(3*s + 5) / 10`.  (All deposit rates in the
program are the literal `0.30`.) -/
def jsRound30 (s : Nat) : Nat := (3 * s + 5) / 10

theorem jsRound30_le (s : Nat) : jsRound30 s ≤ s := by
  unfold jsRound30; omega

/-- Response shape of `POST /api/quote`: `{ subtotal, tax: 0, total: subtotal, deposit }`
(dollars, not cents, in this endpoint). -/
structure Quote where
  subtotal : Nat
  tax : Nat
  total : Nat
  deposit : Nat
deriving DecidableEq

/-- Per-person dollar price of `PKG[req.body?.pkg] || PKG.tasting` in
`POST /api/quote`: tasting 215, family 200, cocktail 125, dinner2 250,
anything else falls back to tasting. -/
def quotePerPerson : Option String → Nat
  | some "tasting" => 215
  | some "family" => 200
  | some "cocktail" => 125
  | some "dinner2" => 250
  | _ => 215

/-- `POST /api/quote`: `g = Math.max(1, guests)`, `subtotal = perPerson * g`,
`deposit = Math.round(subtotal * 0.30)`. -/
def quote (pkg : Option String) (guests : Int) : Quote :=
  let g : Int := max 1 guests
  let subtotal := quotePerPerson pkg * g.toNat
  { subtotal := subtotal, tax := 0, total := subtotal, deposit := jsRound30 subtotal }

/-- Pricing block computed by `POST /api/book` (all in cents). -/
structure BookPricing where
  subtotalCents : Nat
  depositCents : Nat
  balanceCents : Nat
deriving DecidableEq

/-- `POST /api/book` pricing: flat $300 bartender fee, $15-per-guest
tablescape fee, `subtotalCents = base + fees`,
`depositCents = Math.round(subtotalCents * 0.30)`,
`balanceCents = subtotalCents - depositCents`. -/
def bookPricing (perPerson guests : Nat) (bartender tablescape : Bool) : BookPricing :=
  let bartenderFeeCents := if bartender then 300 * 100 else 0
  let tablescapeFeeCents := if tablescape then 15 * guests * 100 else 0
  let baseSubtotalCents := perPerson * guests * 100
  let subtotalCents := baseSubtotalCents + bartenderFeeCents + tablescapeFeeCents
  { subtotalCents := subtotalCents, depositCents := jsRound30 subtotalCents,
    balanceCents := subtotalCents - jsRound30 subtotalCents }

/-- Claim C6: for every booking request accepted by intake (party size ≥ 1,
any combination of the bartender and tablescape add-ons, any per-person
rate), the computed minor-unit amounts satisfy
`depositCents + balanceCents = subtotalCents` exactly. -/
theorem book_deposit_add_balance (perPerson guests : Nat) (bartender tablescape : Bool)
    (_hg : 1 ≤ guests) :
    (bookPricing perPerson guests bartender tablescape).depositCents +
      (bookPricing perPerson guests bartender tablescape).balanceCents =
      (bookPricing perPerson guests bartender tablescape).subtotalCents := by
  have h := jsRound30_le (perPerson * guests * 100 +
    (if bartender then 300 * 100 else 0) + (if tablescape then 15 * guests * 100 else 0))
  simp only [bookPricing]
  omega

theorem book_deposit_add_balance_witness :
    1 ≤ 6 ∧
      (bookPricing 215 6 true true).depositCents +
        (bookPricing 215 6 true true).balanceCents =
        (bookPricing 215 6 true true).subtotalCents :=
  ⟨by decide, book_deposit_add_balance 215 6 true true (by decide)⟩

/-- Claim C7 (counterexample): the quote for package "tasting" with party
size 6 is NOT subtotal $1200 / deposit $360 / balance $840 — the tasting
package is priced at $215 per guest, not $200. -/
theorem quote_tasting6_not_as_claimed :
    ¬ ((quote (some "tasting") 6).subtotal = 1200 ∧
       (quote (some "tasting") 6).deposit = 360 ∧
       (quote (some "tasting") 6).subtotal - (quote (some "tasting") 6).deposit = 840) := by
  decide

/-- Claim C7 (amended): package "tasting" with party size 6 at the $215/guest
rate and 30% deposit gives subtotal $1290, deposit $387, and an implied
balance of $903 (`subtotal - deposit`; the quote response itself carries
subtotal, tax 0, total and deposit). -/
theorem quote_tasting6 :
    quote (some "tasting") 6 = { subtotal := 1290, tax := 0, total := 1290, deposit := 387 } ∧
    (quote (some "tasting") 6).subtotal - (quote (some "tasting") 6).deposit = 903 := by
  decide

/-- A row of the `bookings` table.  `start_at`/`end_at` are day indices
(half-open range `[startAt, endAt)`), `status` is one of
`pending | confirmed | canceled`, `sessionId` is the `stripe_session_id`
column (UNIQUE, nullable).  The TEXT columns that the webhook back-fills
with `COALESCE` are `Option String` (NULL = `none`). -/
structure Booking where
  id : Nat
  startAt : Nat
  endAt : Nat
  status : String
  customerName : String
  customerEmail : String
  sessionId : Option String
  phone : Option String
  address1 : Option String
  city : Option String
  state : Option String
  zip : Option String
  dietNotes : Option String
deriving DecidableEq

/-- A row of the `blackout_dates` table; `startAt` carries a UNIQUE index. -/
structure Blackout where
  startAt : Nat
  endAt : Nat
  reason : Option String
deriving DecidableEq

/-- The half-open range-overlap test used by the availability queries
(`tstzrange(s1,e1,'[)') && tstzrange(s2,e2,'[)')`):
`s1 < e2 ∧ s2 < e1`. -/
def rangesOverlap (s1 e1 s2 e2 : Nat) : Prop := s1 < e2 ∧ s2 < e1

instance (s1 e1 s2 e2 : Nat) : Decidable (rangesOverlap s1 e1 s2 e2) := by
  unfold rangesOverlap; infer_instance

/-- `expandDates` in `GET /api/availability`: enumerate every day `d` with
`startAt ≤ d < endAt`. -/
def expandDates (startAt endAt : Nat) : List Nat :=
  (List.range (endAt - startAt)).map (startAt + ·)

/-- `GET /api/availability`: fetch confirmed bookings and blackout ranges
overlapping `[monthStart, monthEnd)`, expand each range into its days,
deduplicate and sort.  Day strings are modelled by day indices (ISO date
strings sort lexicographically exactly in day order). -/
def availability (bookings : List Booking) (blackouts : List Blackout)
    (monthStart monthEnd : Nat) : List Nat :=
  let qBookings := bookings.filter fun b =>
    b.status = "confirmed" ∧ rangesOverlap b.startAt b.endAt monthStart monthEnd
  let qBlackouts := blackouts.filter fun b =>
    rangesOverlap b.startAt b.endAt monthStart monthEnd
  let booked := (qBookings.map fun b => expandDates b.startAt b.endAt).flatten ++
    (qBlackouts.map fun b => expandDates b.startAt b.endAt).flatten
  (booked.dedup).insertionSort (· ≤ ·)

theorem mem_expandDates {s e d : Nat} : d ∈ expandDates s e ↔ s ≤ d ∧ d < e := by
  unfold expandDates
  simp only [List.mem_map, List.mem_range]
  constructor
  · rintro ⟨i, hi, rfl⟩; omega
  · rintro ⟨h1, h2⟩; exact ⟨d - s, by omega, by omega⟩

/-- Claim C5: every day in the availability result comes from a `confirmed`
booking overlapping the month or from a blackout range overlapping the
month — and the result is literally unchanged when all non-confirmed
(e.g. `pending`) bookings are removed, so a date covered only by a pending
reservation never appears. -/
theorem availability_only_confirmed (bookings : List Booking) (blackouts : List Blackout)
    (monthStart monthEnd d : Nat)
    (hd : d ∈ availability bookings blackouts monthStart monthEnd) :
    ((∃ b ∈ bookings, b.status = "confirmed" ∧
        rangesOverlap b.startAt b.endAt monthStart monthEnd ∧ b.startAt ≤ d ∧ d < b.endAt) ∨
      (∃ b ∈ blackouts,
        rangesOverlap b.startAt b.endAt monthStart monthEnd ∧ b.startAt ≤ d ∧ d < b.endAt)) ∧
    availability bookings blackouts monthStart monthEnd =
      availability (bookings.filter fun b => b.status = "confirmed") blackouts
        monthStart monthEnd := by
  constructor
  · unfold availability at hd
    rw [(List.perm_insertionSort _ _).mem_iff, List.mem_dedup, List.mem_append] at hd
    rcases hd with h | h <;>
      simp only [List.mem_flatten, List.mem_map, List.mem_filter, decide_eq_true_eq] at h
    · obtain ⟨l, ⟨b, ⟨hb, hc, ho⟩, rfl⟩, hdl⟩ := h
      exact Or.inl ⟨b, hb, hc, ho, mem_expandDates.mp hdl⟩
    · obtain ⟨l, ⟨b, ⟨hb, ho⟩, rfl⟩, hdl⟩ := h
      exact Or.inr ⟨b, hb, ho, mem_expandDates.mp hdl⟩
  · have hfilter :
        (bookings.filter fun b =>
          decide (b.status = "confirmed" ∧ rangesOverlap b.startAt b.endAt monthStart monthEnd)) =
        ((bookings.filter fun b => decide (b.status = "confirmed")).filter fun b =>
          decide (b.status = "confirmed" ∧ rangesOverlap b.startAt b.endAt monthStart monthEnd)) := by
      rw [List.filter_filter]
      apply List.filter_congr
      intro b _
      by_cases h : b.status = "confirmed" <;> simp [h]
    simp only [availability]
    rw [hfilter]

theorem availability_only_confirmed_witness :
    5 ∈ availability
        [⟨1, 5, 6, "confirmed", "a", "a@x", none, none, none, none, none, none, none⟩]
        [] 0 30 ∧
      ((∃ b ∈ [(⟨1, 5, 6, "confirmed", "a", "a@x", none, none, none, none, none, none,
            none⟩ : Booking)], b.status = "confirmed" ∧
          rangesOverlap b.startAt b.endAt 0 30 ∧ b.startAt ≤ 5 ∧ 5 < b.endAt) ∨
        (∃ b ∈ ([] : List Blackout),
          rangesOverlap b.startAt b.endAt 0 30 ∧ b.startAt ≤ 5 ∧ 5 < b.endAt)) ∧
      availability
          [⟨1, 5, 6, "confirmed", "a", "a@x", none, none, none, none, none, none, none⟩]
          [] 0 30 =
        availability
          ([⟨1, 5, 6, "confirmed", "a", "a@x", none, none, none, none, none, none,
            none⟩].filter fun b => b.status = "confirmed") [] 0 30 :=
  ⟨by decide,
    availability_only_confirmed
      [⟨1, 5, 6, "confirmed", "a", "a@x", none, none, none, none, none, none, none⟩]
      [] 0 30 5 (by decide)⟩

/-- SQL `COALESCE(a, b)` for two nullable text values. -/
def coalesce (a b : Option String) : Option String :=
  match a with
  | some v => some v
  | none => b

theorem coalesce_coalesce (r x : Option String) :
    coalesce r (coalesce r x) = coalesce r x := by
  cases r <;> rfl

/-- One row of the `INSERT INTO blackout_dates ... ON CONFLICT (start_at)
DO UPDATE SET end_at = EXCLUDED.end_at,
reason = COALESCE(EXCLUDED.reason, blackout_dates.reason)` statement, for the
one-day range `[d, d+1)`. -/
def upsertBlackout (d : Nat) (r : Option String) (bl : List Blackout) : List Blackout :=
  if ∃ b ∈ bl, b.startAt = d then
    bl.map fun b =>
      if b.startAt = d then { b with endAt := d + 1, reason := coalesce r b.reason } else b
  else bl ++ [⟨d, d + 1, r⟩]

/-- The row-by-row effect of the single multi-row upsert statement in
`POST /api/admin/blackouts/bulk`, for a batch whose start dates are
pairwise distinct. -/
def bulkUpsertBlackouts (dates : List Nat) (r : Option String) (bl : List Blackout) :
    List Blackout :=
  dates.foldl (fun acc d => upsertBlackout d r acc) bl

/-- `POST /api/admin/blackouts/bulk`: reject an empty or oversized list with
400; otherwise run the single `INSERT ... ON CONFLICT (start_at) DO UPDATE`
inside one transaction.  A batch containing the same start date twice makes
Postgres abort the statement ("ON CONFLICT DO UPDATE command cannot affect
row a second time", since each row may be inserted/updated at most once per
command); the handler then issues ROLLBACK and answers 500, leaving the
table unchanged. -/
def blackoutsBulk (dates : List Nat) (r : Option String) (bl : List Blackout) :
    Nat × List Blackout :=
  if dates.length = 0 then (400, bl)
  else if 365 < dates.length then (400, bl)
  else if dates.Nodup then (200, bulkUpsertBlackouts dates r bl)
  else (500, bl)

/-- Number of stored blackout ranges whose start is day `d`. -/
def countStart (d : Nat) (bl : List Blackout) : Nat :=
  bl.countP fun b => decide (b.startAt = d)

theorem countStart_upsert_update (d d' : Nat) (r : Option String) (bl : List Blackout)
    (h : ∃ b ∈ bl, b.startAt = d) :
    countStart d' (upsertBlackout d r bl) = countStart d' bl := by
  unfold upsertBlackout
  rw [if_pos h]
  unfold countStart
  rw [List.countP_map]
  apply List.countP_congr
  intro b _
  by_cases hb : b.startAt = d <;> simp [Function.comp, hb]

theorem countStart_upsert_insert (d d' : Nat) (r : Option String) (bl : List Blackout)
    (h : ¬ ∃ b ∈ bl, b.startAt = d) :
    countStart d' (upsertBlackout d r bl) =
      countStart d' bl + (if d = d' then 1 else 0) := by
  unfold upsertBlackout
  rw [if_neg h]
  unfold countStart
  rw [List.countP_append]
  by_cases hd : d = d' <;> simp [List.countP_cons, hd]

theorem countStart_upsert_self (d : Nat) (r : Option String) (bl : List Blackout)
    (h : countStart d bl ≤ 1) :
    countStart d (upsertBlackout d r bl) = 1 := by
  by_cases hex : ∃ b ∈ bl, b.startAt = d
  · rw [countStart_upsert_update d d r bl hex]
    have : 0 < countStart d bl := by
      unfold countStart
      rw [List.countP_pos_iff]
      obtain ⟨b, hb, hbd⟩ := hex
      exact ⟨b, hb, by simp [hbd]⟩
    omega
  · rw [countStart_upsert_insert d d r bl hex]
    have : countStart d bl = 0 := by
      unfold countStart
      rw [List.countP_eq_zero]
      intro b hb
      simp only [decide_eq_true_eq]
      exact fun hbd => hex ⟨b, hb, hbd⟩
    simp [this]

theorem countStart_upsert_le (d d' : Nat) (r : Option String) (bl : List Blackout)
    (h : countStart d' bl ≤ 1) (_hd : countStart d bl ≤ 1) :
    countStart d' (upsertBlackout d r bl) ≤ 1 := by
  by_cases hex : ∃ b ∈ bl, b.startAt = d
  · rw [countStart_upsert_update d d' r bl hex]; exact h
  · rw [countStart_upsert_insert d d' r bl hex]
    have : countStart d bl = 0 := by
      unfold countStart
      rw [List.countP_eq_zero]
      intro b hb
      simp only [decide_eq_true_eq]
      exact fun hbd => hex ⟨b, hb, hbd⟩
    by_cases hdd : d = d'
    · subst hdd; rw [if_pos rfl]; omega
    · simp [hdd]; exact h

theorem countStart_upsert_keeps_one (d d' : Nat) (r : Option String) (bl : List Blackout)
    (h : countStart d' bl = 1) :
    countStart d' (upsertBlackout d r bl) = 1 := by
  by_cases hex : ∃ b ∈ bl, b.startAt = d
  · rw [countStart_upsert_update d d' r bl hex]; exact h
  · rw [countStart_upsert_insert d d' r bl hex]
    by_cases hdd : d = d'
    · subst hdd
      exfalso
      have : countStart d bl = 0 := by
        unfold countStart
        rw [List.countP_eq_zero]
        intro b hb
        simp only [decide_eq_true_eq]
        exact fun hbd => hex ⟨b, hb, hbd⟩
      omega
    · simp [hdd]; exact h

theorem bulkUpsert_inv (dates : List Nat) (r : Option String) (bl : List Blackout)
    (hinv : ∀ d', countStart d' bl ≤ 1) :
    ∀ d', countStart d' (bulkUpsertBlackouts dates r bl) ≤ 1 := by
  induction dates generalizing bl with
  | nil => exact hinv
  | cons d ds ih =>
    exact ih (upsertBlackout d r bl)
      (fun d' => countStart_upsert_le d d' r bl (hinv d') (hinv d))

theorem bulkUpsert_keeps_one (dates : List Nat) (r : Option String) (bl : List Blackout)
    (d' : Nat) (hinv : ∀ x, countStart x bl ≤ 1) (h : countStart d' bl = 1) :
    countStart d' (bulkUpsertBlackouts dates r bl) = 1 := by
  induction dates generalizing bl with
  | nil => exact h
  | cons d ds ih =>
    exact ih (upsertBlackout d r bl)
      (fun x => countStart_upsert_le d x r bl (hinv x) (hinv d))
      (countStart_upsert_keeps_one d d' r bl h)

theorem bulkUpsert_count_one (dates : List Nat) (r : Option String) (bl : List Blackout)
    (hinv : ∀ x, countStart x bl ≤ 1) :
    ∀ d ∈ dates, countStart d (bulkUpsertBlackouts dates r bl) = 1 := by
  induction dates generalizing bl with
  | nil => intro d hd; cases hd
  | cons d0 ds ih =>
    intro d hd
    have hinv' : ∀ x, countStart x (upsertBlackout d0 r bl) ≤ 1 :=
      fun x => countStart_upsert_le d0 x r bl (hinv x) (hinv d0)
    rcases List.mem_cons.mp hd with rfl | hds
    · exact bulkUpsert_keeps_one ds r (upsertBlackout d r bl) d hinv'
        (countStart_upsert_self d r bl (hinv d))
    · exact ih (upsertBlackout d0 r bl) hinv' d hds

/-- The blackout row for start day `d` is present and already absorbed an
upsert with reason `r`: its end is `d+1` and its reason is a fixed point of
`COALESCE(r, ·)`. -/
def blackoutStable (d : Nat) (r : Option String) (bl : List Blackout) : Prop :=
  (∃ b ∈ bl, b.startAt = d) ∧
  ∀ b ∈ bl, b.startAt = d → b.endAt = d + 1 ∧ coalesce r b.reason = b.reason

theorem blackoutStable_upsert_self (d : Nat) (r : Option String) (bl : List Blackout) :
    blackoutStable d r (upsertBlackout d r bl) := by
  unfold upsertBlackout
  by_cases hex : ∃ b ∈ bl, b.startAt = d
  · rw [if_pos hex]
    obtain ⟨b0, hb0, hb0d⟩ := hex
    constructor
    · refine ⟨_, List.mem_map_of_mem _ hb0, ?_⟩
      split <;> exact hb0d
    · intro c hc hcd
      obtain ⟨b, _, rfl⟩ := List.mem_map.mp hc
      by_cases h : b.startAt = d
      · rw [if_pos h]
        exact ⟨rfl, coalesce_coalesce r b.reason⟩
      · rw [if_neg h] at hcd ⊢
        exact absurd hcd h
  · rw [if_neg hex]
    constructor
    · exact ⟨⟨d, d + 1, r⟩, by simp, rfl⟩
    · intro c hc hcd
      rcases List.mem_append.mp hc with h | h
      · exact absurd ⟨c, h, hcd⟩ hex
      · simp only [List.mem_singleton] at h
        subst h
        exact ⟨rfl, by cases r <;> rfl⟩

theorem blackoutStable_upsert (d d'' : Nat) (r : Option String) (bl : List Blackout)
    (h : blackoutStable d r bl) :
    blackoutStable d r (upsertBlackout d'' r bl) := by
  obtain ⟨⟨b0, hb0, hb0d⟩, hst⟩ := h
  unfold upsertBlackout
  by_cases hex : ∃ b ∈ bl, b.startAt = d''
  · rw [if_pos hex]
    constructor
    · refine ⟨_, List.mem_map_of_mem _ hb0, ?_⟩
      split <;> exact hb0d
    · intro c hc hcd
      obtain ⟨b, hb, rfl⟩ := List.mem_map.mp hc
      by_cases h : b.startAt = d''
      · rw [if_pos h] at hcd ⊢
        have hdd : d'' = d := by rw [← h]; exact hcd
        subst hdd
        exact ⟨rfl, coalesce_coalesce r b.reason⟩
      · rw [if_neg h] at hcd ⊢
        exact hst b hb hcd
  · rw [if_neg hex]
    constructor
    · exact ⟨b0, List.mem_append_left _ hb0, hb0d⟩
    · intro c hc hcd
      rcases List.mem_append.mp hc with h | h
      · exact hst c h hcd
      · simp only [List.mem_singleton] at h
        subst h
        have hdd : d'' = d := hcd
        subst hdd
        exact ⟨rfl, by cases r <;> rfl⟩

theorem upsertBlackout_noop (d : Nat) (r : Option String) (bl : List Blackout)
    (h : blackoutStable d r bl) :
    upsertBlackout d r bl = bl := by
  unfold upsertBlackout
  rw [if_pos h.1]
  have hcongr : ∀ b ∈ bl,
      (if b.startAt = d then { b with endAt := d + 1, reason := coalesce r b.reason } else b) =
        b := by
    intro b hb
    by_cases hbd : b.startAt = d
    · obtain ⟨he, hr⟩ := h.2 b hb hbd
      cases b
      simp only at he hr
      simp [hbd, he, hr]
    · simp [hbd]
  calc bl.map (fun b =>
        if b.startAt = d then { b with endAt := d + 1, reason := coalesce r b.reason } else b)
      = bl.map id := List.map_congr_left hcongr
    _ = bl := List.map_id bl

theorem bulkUpsert_stable (ds : List Nat) (d : Nat) (r : Option String) (acc : List Blackout)
    (h : blackoutStable d r acc) :
    blackoutStable d r (bulkUpsertBlackouts ds r acc) := by
  induction ds generalizing acc with
  | nil => exact h
  | cons d0 ds ih => exact ih (upsertBlackout d0 r acc) (blackoutStable_upsert d d0 r acc h)

theorem bulkUpsert_establishes (dates : List Nat) (r : Option String) (bl : List Blackout) :
    ∀ d ∈ dates, blackoutStable d r (bulkUpsertBlackouts dates r bl) := by
  induction dates generalizing bl with
  | nil => intro d hd; cases hd
  | cons d0 ds ih =>
    intro d hd
    rcases List.mem_cons.mp hd with rfl | hds
    · exact bulkUpsert_stable ds d r (upsertBlackout d r bl)
        (blackoutStable_upsert_self d r bl)
    · exact ih (upsertBlackout d0 r bl) d hds

theorem bulkUpsert_idem_aux (dates : List Nat) (r : Option String) (acc : List Blackout)
    (h : ∀ d ∈ dates, blackoutStable d r acc) :
    bulkUpsertBlackouts dates r acc = acc := by
  induction dates with
  | nil => rfl
  | cons d0 ds ih =>
    unfold bulkUpsertBlackouts
    simp only [List.foldl_cons]
    rw [upsertBlackout_noop d0 r acc (h d0 (List.mem_cons_self d0 ds))]
    exact ih fun d hd => h d (List.mem_cons_of_mem d0 hd)

/-- Claim C9 (counterexample): bulk-adding a list that contains the same
date twice does NOT leave exactly one stored range per distinct start date —
the single multi-row `ON CONFLICT DO UPDATE` statement fails (a command may
not affect the same row twice), the transaction is rolled back with a 500,
and on an empty store the duplicated date ends up stored zero times, not
once. -/
theorem blackoutsBulk_duplicate_fails :
    blackoutsBulk [5, 5] none [] = (500, []) ∧
    countStart 5 (blackoutsBulk [5, 5] none []).2 = 0 := by
  constructor <;> rfl

/-- Claim C9 (amended): for a batch of 1–365 dates with pairwise-distinct
starts, the bulk add is an upsert keyed on range start run in one atomic
transaction: afterwards exactly one stored range exists per start date in
the batch (given the UNIQUE-index invariant of at most one row per start),
and re-running the identical bulk add succeeds and changes nothing.  A batch
that repeats a start date fails as a whole (HTTP 500) and inserts or updates
nothing. -/
theorem blackoutsBulk_upsert (dates : List Nat) (r : Option String) (bl : List Blackout)
    (hlen1 : 1 ≤ dates.length) (hlen2 : dates.length ≤ 365)
    (hinv : ∀ d, countStart d bl ≤ 1) :
    (dates.Nodup →
      (blackoutsBulk dates r bl).1 = 200 ∧
      (∀ d ∈ dates, countStart d (blackoutsBulk dates r bl).2 = 1) ∧
      blackoutsBulk dates r (blackoutsBulk dates r bl).2 =
        (200, (blackoutsBulk dates r bl).2)) ∧
    (¬ dates.Nodup → blackoutsBulk dates r bl = (500, bl)) := by
  have h0 : ¬ dates.length = 0 := by omega
  have h365 : ¬ 365 < dates.length := by omega
  constructor
  · intro hnd
    have hres : blackoutsBulk dates r bl = (200, bulkUpsertBlackouts dates r bl) := by
      unfold blackoutsBulk
      rw [if_neg h0, if_neg h365, if_pos hnd]
    refine ⟨by rw [hres], ?_, ?_⟩
    · intro d hd
      rw [hres]
      exact bulkUpsert_count_one dates r bl hinv d hd
    · rw [hres]
      unfold blackoutsBulk
      rw [if_neg h0, if_neg h365, if_pos hnd,
        bulkUpsert_idem_aux dates r _ (bulkUpsert_establishes dates r bl)]
  · intro hnd
    unfold blackoutsBulk
    rw [if_neg h0, if_neg h365, if_neg hnd]

theorem blackoutsBulk_upsert_witness :
    1 ≤ ([3, 5] : List Nat).length ∧ ([3, 5] : List Nat).length ≤ 365 ∧
    (([3, 5] : List Nat).Nodup →
      (blackoutsBulk [3, 5] none []).1 = 200 ∧
      (∀ d ∈ ([3, 5] : List Nat), countStart d (blackoutsBulk [3, 5] none []).2 = 1) ∧
      blackoutsBulk [3, 5] none (blackoutsBulk [3, 5] none []).2 =
        (200, (blackoutsBulk [3, 5] none []).2)) :=
  ⟨by decide, by decide,
    (blackoutsBulk_upsert [3, 5] none [] (by decide) (by decide)
      (fun d => by simp [countStart])).1⟩

/-- A pop-up event record from `events.json`: `capacity`, `sold` and the list
of Stripe session ids already credited (`sessions`, the idempotency set). -/
structure PopupEvent where
  id : String
  capacity : Int
  sold : Int
  sessions : List String
deriving DecidableEq

/-- Modify the first list element satisfying `p` (the `events.findIndex` /
`events.find` + in-place mutation pattern of the pop-up module). -/
def updateFirst {α : Type} (p : α → Prop) [DecidablePred p] (f : α → α) :
    List α → List α
  | [] => []
  | x :: xs => if p x then f x :: xs else x :: updateFirst p f xs

/-- `Math.max(1, Number(md.quantity || 1))`: a missing or zero (falsy)
quantity counts as 1, and the result is at least 1. -/
def purchaseQty (q : Option Int) : Int :=
  max 1 (match q with
    | some v => if v = 0 then 1 else v
    | none => 1)

/-- The webhook's pop-up seat update (the `md.event_id` block): find the
event; if this session id was already recorded, skip; otherwise add the
purchased quantity to `sold` — with NO capacity clamp — and record the
session id. -/
def recordPurchase (eid sid : String) (q : Option Int) (events : List PopupEvent) :
    List PopupEvent :=
  updateFirst (fun e => e.id = eid)
    (fun e =>
      if sid ∈ e.sessions then e
      else { e with sold := e.sold + purchaseQty q, sessions := e.sessions ++ [sid] })
    events

/-- `POST /api/admin/events/:id/adjust-sold`: reject a zero delta (400) or a
missing event (404); otherwise set
`sold := Math.max(0, Math.min(capacity, sold + delta))`. -/
def adjustSold (eid : String) (delta : Int) (events : List PopupEvent) :
    Nat × List PopupEvent :=
  if delta = 0 then (400, events)
  else if ∃ e ∈ events, e.id = eid then
    (200, updateFirst (fun e => e.id = eid)
      (fun e => { e with sold := max 0 (min e.capacity (e.sold + delta)) }) events)
  else (404, events)

theorem mem_updateFirst {α : Type} (p : α → Prop) [DecidablePred p] (f : α → α)
    (l : List α) (e : α) (he : e ∈ updateFirst p f l) :
    e ∈ l ∨ ∃ x ∈ l, e = f x := by
  induction l with
  | nil => cases he
  | cons x xs ih =>
    unfold updateFirst at he
    by_cases hp : p x
    · rw [if_pos hp] at he
      rcases List.mem_cons.mp he with rfl | h
      · exact Or.inr ⟨x, List.mem_cons_self x xs, rfl⟩
      · exact Or.inl (List.mem_cons_of_mem x h)
    · rw [if_neg hp] at he
      rcases List.mem_cons.mp he with rfl | h
      · exact Or.inl (List.mem_cons_self e xs)
      · rcases ih h with h' | ⟨y, hy, rfl⟩
        · exact Or.inl (List.mem_cons_of_mem x h')
        · exact Or.inr ⟨y, List.mem_cons_of_mem x hy, rfl⟩

/-- Claim C4 (counterexample): the webhook seat update does not clamp.  An
event with capacity 10 and sold 9 (a well-formed state) receives a purchase
of quantity 3 on a fresh session id: `sold` becomes 12, exceeding capacity. -/
theorem recordPurchase_exceeds_capacity :
    ((0 : Int) ≤ (9 : Int) ∧ (9 : Int) ≤ (10 : Int)) ∧
    ((recordPurchase "e" "cs_1" (some 3) [⟨"e", 10, 9, []⟩]).map fun e => e.sold) = [12] ∧
    ¬ (∀ e ∈ recordPurchase "e" "cs_1" (some 3) [⟨"e", 10, 9, []⟩],
        e.sold ≤ e.capacity) := by
  exact ⟨by decide, by decide, by decide⟩

/-- Claim C4 (amended): the admin adjust-sold operation clamps and therefore
keeps `sold` within `[0, capacity]` for every event and every delta (given
non-negative capacities); the webhook purchase update keeps `sold ≥ 0` and
never decreases it, but applies no upper clamp, so it alone can push `sold`
above `capacity`. -/
theorem seat_accounting_bounds (events : List PopupEvent) (eid sid : String)
    (delta : Int) (q : Option Int)
    (hwf : ∀ e ∈ events, 0 ≤ e.sold ∧ e.sold ≤ e.capacity)
    (hcap : ∀ e ∈ events, 0 ≤ e.capacity) :
    (∀ e ∈ (adjustSold eid delta events).2, 0 ≤ e.sold ∧ e.sold ≤ e.capacity) ∧
    (∀ e ∈ recordPurchase eid sid q events, 0 ≤ e.sold) := by
  constructor
  · intro e he
    unfold adjustSold at he
    by_cases h0 : delta = 0
    · rw [if_pos h0] at he; exact hwf e he
    · rw [if_neg h0] at he
      by_cases hex : ∃ x ∈ events, x.id = eid
      · rw [if_pos hex] at he
        rcases mem_updateFirst _ _ events e he with h | ⟨x, hx, rfl⟩
        · exact hwf e h
        · have hc := hcap x hx
          constructor
          · simp only [le_max_iff]; left; rfl
          · simp only
            have h1 : min x.capacity (x.sold + delta) ≤ x.capacity := min_le_left _ _
            omega
      · rw [if_neg hex] at he; exact hwf e he
  · intro e he
    unfold recordPurchase at he
    rcases mem_updateFirst _ _ events e he with h | ⟨x, hx, rfl⟩
    · exact (hwf e h).1
    · by_cases hs : sid ∈ x.sessions
      · rw [if_pos hs]; exact (hwf x hx).1
      · rw [if_neg hs]
        simp only
        have h1 : (0 : Int) ≤ x.sold := (hwf x hx).1
        have h2 : (1 : Int) ≤ purchaseQty q := le_max_left _ _
        omega

theorem seat_accounting_bounds_witness :
    (∀ e ∈ [(⟨"e", 10, 9, []⟩ : PopupEvent)], 0 ≤ e.sold ∧ e.sold ≤ e.capacity) ∧
    (∀ e ∈ (adjustSold "e" 5 [(⟨"e", 10, 9, []⟩ : PopupEvent)]).2,
      0 ≤ e.sold ∧ e.sold ≤ e.capacity) ∧
    (∀ e ∈ recordPurchase "e" "cs_9" (some 2) [(⟨"e", 10, 9, []⟩ : PopupEvent)],
      0 ≤ e.sold) :=
  ⟨by decide,
    (seat_accounting_bounds [⟨"e", 10, 9, []⟩] "e" "cs_9" 5 (some 2)
      (by decide) (by decide)).1,
    (seat_accounting_bounds [⟨"e", 10, 9, []⟩] "e" "cs_9" 5 (some 2)
      (by decide) (by decide)).2⟩

/-- A row of the `gift_cards` table (contact/message columns omitted; `code`
and `stripe_session_id` both carry UNIQUE constraints). -/
structure GiftCard where
  id : Nat
  code : String
  amountCents : Nat
  originalAmountCents : Nat
  withBasket : Bool
  sessionId : Option String
  status : String
deriving DecidableEq

/-- `requireAdmin` middleware: `if (!process.env.ADMIN_KEY) return next()` —
an unset (or empty, hence falsy) ADMIN_KEY admits every request; otherwise
the `x-admin-key` header must equal the key, else 401. -/
def requireAdmin (envAdminKey headerKey : Option String) : Bool :=
  match envAdminKey with
  | none => true
  | some k => if k = "" then true else decide (headerKey = some k)

/-- `POST /api/admin/giftcards/:id/redeem` behind `requireAdmin`: 400 on an
invalid (falsy) id, else `UPDATE gift_cards SET status='redeemed' WHERE id=$1`,
404 when no row matched. -/
def redeemGiftCard (id : Nat) (gcs : List GiftCard) : Nat × List GiftCard :=
  if id = 0 then (400, gcs)
  else if ∃ g ∈ gcs, g.id = id then
    (200, gcs.map fun g => if g.id = id then { g with status := "redeemed" } else g)
  else (404, gcs)

/-- An admin mutation composed with the `requireAdmin` guard. -/
def guardedRedeem (envAdminKey headerKey : Option String) (id : Nat)
    (gcs : List GiftCard) : Nat × List GiftCard :=
  if requireAdmin envAdminKey headerKey then redeemGiftCard id gcs else (401, gcs)

/-- Claim C10: with ADMIN_KEY unset the guard admits every request — the
guarded mutation behaves exactly like the unguarded one for every
`x-admin-key` header — and with ADMIN_KEY set to a non-empty key, a request
whose header differs is rejected with 401 and changes no state. -/
theorem requireAdmin_policy (headerKey : Option String) (id : Nat)
    (gcs : List GiftCard) (k : String) (hk : k ≠ "") (hmis : headerKey ≠ some k) :
    guardedRedeem none headerKey id gcs = redeemGiftCard id gcs ∧
    requireAdmin none headerKey = true ∧
    guardedRedeem (some k) headerKey id gcs = (401, gcs) := by
  refine ⟨rfl, rfl, ?_⟩
  simp only [guardedRedeem, requireAdmin]
  simp [hk, hmis]

theorem requireAdmin_policy_witness :
    "secret" ≠ "" ∧ some "wrong" ≠ some "secret" ∧
    (guardedRedeem none (some "wrong") 1 [] = redeemGiftCard 1 [] ∧
      requireAdmin none (some "wrong") = true ∧
      guardedRedeem (some "secret") (some "wrong") 1 [] = (401, [])) :=
  ⟨by decide, by decide,
    requireAdmin_policy (some "wrong") 1 [] "secret" (by decide) (by decide)⟩

/-- The data the webhook handler reads off a verified
`checkout.session.completed` event: the session id, the metadata echoed
from checkout creation, and the customer fields as derived by the handler
(`cd.name || first+last`, `cd.email || md.email || ""`, `cd.phone || md.phone
|| ""`, address fallbacks, `combinedNotes` from the custom fields,
`md.diet_notes`).  The derivations are deterministic in the payload, so an
identical payload yields identical values. -/
structure Session where
  sessionId : String
  mdType : Option String
  bookingId : Option Nat
  eventDate : Option Nat
  eventId : Option String
  quantity : Option Int
  amountCents : Nat
  withBasket : Bool
  fullName : String
  email : String
  phone : String
  address1 : String
  city : String
  state : String
  zip : String
  combinedNotes : String
  mdDietNotes : String
deriving DecidableEq

/-- `const bookingId = md.booking_id ? Number(md.booking_id) : null` followed
by `if (bookingId)`: the branch is taken only for a present, non-zero id. -/
def Session.effBookingId (s : Session) : Option Nat :=
  match s.bookingId with
  | some b => if b = 0 then none else some b
  | none => none

/-- Next BIGSERIAL id for a bookings insert. -/
def freshBookingId (bs : List Booking) : Nat :=
  bs.foldr (fun b m => max b.id m) 0 + 1

/-- Next BIGSERIAL id for a gift-card insert. -/
def freshGiftCardId (gcs : List GiftCard) : Nat :=
  gcs.foldr (fun g m => max g.id m) 0 + 1

/-- The webhook's `UPDATE bookings SET status='confirmed', stripe_session_id,
customer_name, customer_email, phone = COALESCE(phone,$5), ... WHERE id=$1`
applied to one row. -/
def applyConfirm (s : Session) (r : Booking) : Booking :=
  { r with
    status := "confirmed"
    sessionId := some s.sessionId
    customerName := jsOr s.fullName "—"
    customerEmail := s.email
    phone := some (r.phone.getD s.phone)
    address1 := some (r.address1.getD s.address1)
    city := some (r.city.getD s.city)
    state := some (r.state.getD s.state)
    zip := some (r.zip.getD s.zip)
    dietNotes := some (r.dietNotes.getD (jsOr s.combinedNotes s.mdDietNotes)) }

/-- The conditional UPDATE over the whole table (`WHERE id = b`). -/
def updateBookings (s : Session) (b : Nat) (bs : List Booking) : List Booking :=
  bs.map fun r => if r.id = b then applyConfirm s r else r

/-- The UNIQUE constraint on `bookings.stripe_session_id`: setting the
session id on row `b` raises a constraint violation when a different row
already holds it (the whole statement then fails and the handler answers
500 with no change). -/
def sessionConflict (s : Session) (b : Nat) (bs : List Booking) : Prop :=
  ∃ r ∈ bs, r.id ≠ b ∧ r.sessionId = some s.sessionId

instance (s : Session) (b : Nat) (bs : List Booking) :
    Decidable (sessionConflict s b bs) := by
  unfold sessionConflict; infer_instance

/-- The row inserted by the webhook's fallback
`INSERT INTO bookings (...) VALUES ($1,$2,'confirmed',...)` for event date
`d` (range `[d, d+1)`). -/
def fallbackRow (s : Session) (newId d : Nat) : Booking :=
  { id := newId, startAt := d, endAt := d + 1, status := "confirmed",
    customerName := jsOr s.fullName "—", customerEmail := s.email,
    sessionId := some s.sessionId, phone := some s.phone,
    address1 := some s.address1, city := some s.city, state := some s.state,
    zip := some s.zip, dietNotes := some s.combinedNotes }

/-- The fallback `INSERT ... ON CONFLICT (stripe_session_id) DO UPDATE SET
status='confirmed'`: update the conflicting row's status if the session id
is already stored, otherwise insert a fresh confirmed row. -/
def upsertFallback (s : Session) (d : Nat) (bs : List Booking) : List Booking :=
  if ∃ r ∈ bs, r.sessionId = some s.sessionId then
    bs.map fun r =>
      if r.sessionId = some s.sessionId then { r with status := "confirmed" } else r
  else bs ++ [fallbackRow s (freshBookingId bs) d]

/-- The gift-card row inserted by the webhook's `gift_card` branch, with a
freshly generated code (the code is random at run time, so it is passed in
as a parameter). -/
def giftRow (s : Session) (code : String) (newId : Nat) : GiftCard :=
  { id := newId, code := code, amountCents := s.amountCents,
    originalAmountCents := s.amountCents, withBasket := s.withBasket,
    sessionId := some s.sessionId, status := "active" }

/-- The UNIQUE constraints on `gift_cards.code` and
`gift_cards.stripe_session_id`: the plain INSERT (no ON CONFLICT clause)
throws on a duplicate, the outer catch answers 500, nothing is stored. -/
def giftConflict (s : Session) (code : String) (gcs : List GiftCard) : Prop :=
  ∃ g ∈ gcs, g.code = code ∨ g.sessionId = some s.sessionId

instance (s : Session) (code : String) (gcs : List GiftCard) :
    Decidable (giftConflict s code gcs) := by
  unfold giftConflict; infer_instance

/-- The mutable stores the webhook touches: the `bookings` and `gift_cards`
tables and the `events.json` pop-up file. -/
structure ServerState where
  bookings : List Booking
  giftCards : List GiftCard
  events : List PopupEvent
deriving DecidableEq

/-- The webhook's pop-up block runs only when `md.event_id` is present. -/
def popupStep (s : Session) (events : List PopupEvent) : List PopupEvent :=
  match s.eventId with
  | some eid => recordPurchase eid s.sessionId s.quantity events
  | none => events

/-- The `checkout.session.completed` branch of `POST /api/stripe/webhook`:
the `gift_card` metadata type inserts a gift card and returns early; else a
present booking id drives the conditional UPDATE, or else a present event
date drives the fallback upsert; afterwards the pop-up seat block runs.
Any thrown storage error (unique-constraint violation) reaches the outer
catch: response 500, no state change. -/
def handleCompleted (s : Session) (freshCode : String) (st : ServerState) :
    Nat × ServerState :=
  if s.mdType = some "gift_card" then
    if giftConflict s freshCode st.giftCards then (500, st)
    else (200, { st with
      giftCards := st.giftCards ++ [giftRow s freshCode (freshGiftCardId st.giftCards)] })
  else
    match s.effBookingId with
    | some b =>
      if sessionConflict s b st.bookings then (500, st)
      else (200, { st with
                   bookings := updateBookings s b st.bookings
                   events := popupStep s st.events })
    | none =>
      match s.eventDate with
      | some d => (200, { st with
                          bookings := upsertFallback s d st.bookings
                          events := popupStep s st.events })
      | none => (200, { st with events := popupStep s st.events })

/-- Full `POST /api/stripe/webhook`: with no configured webhook secret the
event is ignored (200); with an invalid signature the request is rejected
with 400 before any processing; only a verified
`checkout.session.completed` event is processed. -/
def processWebhook (secretSet sigValid completed : Bool) (s : Session)
    (freshCode : String) (st : ServerState) : Nat × ServerState :=
  if !secretSet then (200, st)
  else if !sigValid then (400, st)
  else if completed then handleCompleted s freshCode st
  else (200, st)

/-- `POST /api/admin/bookings`: unconditionally insert a `confirmed` one-day
booking `[d, d+1)` — the handler performs no overlap check. -/
def adminCreateBooking (d : Nat) (name email : String) (bs : List Booking) :
    List Booking :=
  bs ++ [{ id := freshBookingId bs, startAt := d, endAt := d + 1,
           status := "confirmed", customerName := name, customerEmail := email,
           sessionId := none, phone := none, address1 := none, city := none,
           state := none, zip := none, dietNotes := none }]

/-- Two bookings' half-open day ranges overlap. -/
def overlapB (a b : Booking) : Prop :=
  a.startAt < b.endAt ∧ b.startAt < a.endAt

instance (a b : Booking) : Decidable (overlapB a b) := by
  unfold overlapB; infer_instance

/-- No two distinct `confirmed` bookings in the list have overlapping date
ranges. -/
def noOverlapConfirmed (bs : List Booking) : Prop :=
  bs.Pairwise fun a b =>
    a.status = "confirmed" → b.status = "confirmed" → ¬ overlapB a b

instance (bs : List Booking) : Decidable (noOverlapConfirmed bs) := by
  unfold noOverlapConfirmed; infer_instance

theorem applyConfirm_idem (s : Session) (r : Booking) :
    applyConfirm s (applyConfirm s r) = applyConfirm s r := by
  simp [applyConfirm]

theorem updateBookings_idem (s : Session) (b : Nat) (bs : List Booking) :
    updateBookings s b (updateBookings s b bs) = updateBookings s b bs := by
  unfold updateBookings
  rw [List.map_map]
  apply List.map_congr_left
  intro r _
  by_cases h : r.id = b
  · simp only [Function.comp_apply, if_pos h]
    have h2 : (applyConfirm s r).id = b := h
    rw [if_pos h2, applyConfirm_idem]
  · simp only [Function.comp_apply, if_neg h]

theorem sessionConflict_update_iff (s : Session) (b : Nat) (bs : List Booking) :
    sessionConflict s b (updateBookings s b bs) ↔ sessionConflict s b bs := by
  unfold sessionConflict updateBookings
  constructor
  · rintro ⟨r, hr, hid, hsid⟩
    obtain ⟨r0, hr0, rfl⟩ := List.mem_map.mp hr
    by_cases h : r0.id = b
    · rw [if_pos h] at hid
      exact absurd h hid
    · rw [if_neg h] at hid hsid
      exact ⟨r0, hr0, hid, hsid⟩
  · rintro ⟨r, hr, hid, hsid⟩
    refine ⟨_, List.mem_map_of_mem _ hr, ?_, ?_⟩
    · rw [if_neg hid]; exact hid
    · rw [if_neg hid]; exact hsid

theorem updateFirst_idem {α : Type} (p : α → Prop) [DecidablePred p] (f : α → α)
    (hp : ∀ x, p x → p (f x)) (hf : ∀ x, p x → f (f x) = f x) (l : List α) :
    updateFirst p f (updateFirst p f l) = updateFirst p f l := by
  induction l with
  | nil => rfl
  | cons x xs ih =>
    by_cases h : p x
    · simp only [updateFirst, if_pos h, if_pos (hp x h), hf x h]
    · simp only [updateFirst, if_neg h, ih]

theorem recordPurchase_idem (eid sid : String) (q : Option Int)
    (evs : List PopupEvent) :
    recordPurchase eid sid q (recordPurchase eid sid q evs) =
      recordPurchase eid sid q evs := by
  unfold recordPurchase
  apply updateFirst_idem
  · intro x hx
    by_cases h : sid ∈ x.sessions
    · rw [if_pos h]; exact hx
    · rw [if_neg h]; exact hx
  · intro x _
    by_cases h : sid ∈ x.sessions
    · rw [if_pos h, if_pos h]
    · rw [if_neg h]
      simp

theorem popupStep_idem (s : Session) (evs : List PopupEvent) :
    popupStep s (popupStep s evs) = popupStep s evs := by
  cases h : s.eventId with
  | none => simp [popupStep, h]
  | some eid => simp [popupStep, h, recordPurchase_idem]

theorem set_status_confirmed_self (r : Booking) (h : r.status = "confirmed") :
    ({ r with status := "confirmed" } : Booking) = r := by
  rcases r with ⟨i, sa, ea, stt, cn, ce, sid, ph, a1, ci, st2, zp, dn⟩
  simp only at h
  subst h
  rfl

theorem upsertFallback_has_sid (s : Session) (d : Nat) (bs : List Booking) :
    ∃ r ∈ upsertFallback s d bs, r.sessionId = some s.sessionId := by
  unfold upsertFallback
  by_cases hex : ∃ r ∈ bs, r.sessionId = some s.sessionId
  · rw [if_pos hex]
    obtain ⟨r0, hr0, hsid⟩ := hex
    refine ⟨_, List.mem_map_of_mem _ hr0, ?_⟩
    rw [if_pos hsid]
    exact hsid
  · rw [if_neg hex]
    exact ⟨fallbackRow s (freshBookingId bs) d,
      List.mem_append_right _ (by simp), rfl⟩

theorem upsertFallback_sid_confirmed (s : Session) (d : Nat) (bs : List Booking) :
    ∀ r ∈ upsertFallback s d bs, r.sessionId = some s.sessionId →
      r.status = "confirmed" := by
  intro r hr hsid
  unfold upsertFallback at hr
  by_cases hex : ∃ x ∈ bs, x.sessionId = some s.sessionId
  · rw [if_pos hex] at hr
    obtain ⟨r0, _, rfl⟩ := List.mem_map.mp hr
    by_cases h : r0.sessionId = some s.sessionId
    · rw [if_pos h]
    · rw [if_neg h] at hsid ⊢
      exact absurd hsid h
  · rw [if_neg hex] at hr
    rcases List.mem_append.mp hr with h | h
    · exact absurd ⟨r, h, hsid⟩ hex
    · simp only [List.mem_singleton] at h
      subst h
      rfl

theorem upsertFallback_noop (s : Session) (d : Nat) (bs : List Booking)
    (hex : ∃ r ∈ bs, r.sessionId = some s.sessionId)
    (hconf : ∀ r ∈ bs, r.sessionId = some s.sessionId → r.status = "confirmed") :
    upsertFallback s d bs = bs := by
  unfold upsertFallback
  rw [if_pos hex]
  have hfix : ∀ r ∈ bs,
      (if r.sessionId = some s.sessionId then ({ r with status := "confirmed" } : Booking)
        else r) = r := by
    intro r hr
    by_cases hsid : r.sessionId = some s.sessionId
    · rw [if_pos hsid]
      exact set_status_confirmed_self r (hconf r hr hsid)
    · rw [if_neg hsid]
  calc bs.map (fun r =>
        if r.sessionId = some s.sessionId then { r with status := "confirmed" } else r)
      = bs.map id := List.map_congr_left hfix
    _ = bs := List.map_id bs

theorem upsertFallback_idem (s : Session) (d d' : Nat) (bs : List Booking) :
    upsertFallback s d' (upsertFallback s d bs) = upsertFallback s d bs :=
  upsertFallback_noop s d' (upsertFallback s d bs)
    (upsertFallback_has_sid s d bs)
    (upsertFallback_sid_confirmed s d bs)

/-- Gift cards stored for one payment correlation (session) id. -/
def countGiftSession (sid : String) (gcs : List GiftCard) : Nat :=
  gcs.countP fun g => decide (g.sessionId = some sid)

theorem handleCompleted_gift_conflict (s : Session) (c : String) (st : ServerState)
    (hgift : s.mdType = some "gift_card") (hconf : giftConflict s c st.giftCards) :
    handleCompleted s c st = (500, st) := by
  unfold handleCompleted
  rw [if_pos hgift, if_pos hconf]

theorem handleCompleted_gift_insert (s : Session) (c : String) (st : ServerState)
    (hgift : s.mdType = some "gift_card") (hconf : ¬ giftConflict s c st.giftCards) :
    handleCompleted s c st = (200, { st with
      giftCards := st.giftCards ++ [giftRow s c (freshGiftCardId st.giftCards)] }) := by
  unfold handleCompleted
  rw [if_pos hgift, if_neg hconf]

theorem handleCompleted_update_conflict (s : Session) (c : String) (st : ServerState)
    (b : Nat) (hgift : s.mdType ≠ some "gift_card") (hb : s.effBookingId = some b)
    (hconf : sessionConflict s b st.bookings) :
    handleCompleted s c st = (500, st) := by
  simp [handleCompleted, hgift, hb, hconf]

theorem handleCompleted_update_ok (s : Session) (c : String) (st : ServerState)
    (b : Nat) (hgift : s.mdType ≠ some "gift_card") (hb : s.effBookingId = some b)
    (hconf : ¬ sessionConflict s b st.bookings) :
    handleCompleted s c st = (200, { st with
      bookings := updateBookings s b st.bookings
      events := popupStep s st.events }) := by
  simp [handleCompleted, hgift, hb, hconf]

theorem handleCompleted_fallback (s : Session) (c : String) (st : ServerState)
    (d : Nat) (hgift : s.mdType ≠ some "gift_card") (hb : s.effBookingId = none)
    (hd : s.eventDate = some d) :
    handleCompleted s c st = (200, { st with
      bookings := upsertFallback s d st.bookings
      events := popupStep s st.events }) := by
  simp [handleCompleted, hgift, hb, hd]

theorem handleCompleted_plain (s : Session) (c : String) (st : ServerState)
    (hgift : s.mdType ≠ some "gift_card") (hb : s.effBookingId = none)
    (hd : s.eventDate = none) :
    handleCompleted s c st = (200, { st with events := popupStep s st.events }) := by
  simp [handleCompleted, hgift, hb, hd]

/-- Claim C8: a webhook request whose Stripe signature fails verification
(with the signing secret configured) is answered with HTTP 400 and nothing
is processed: the reservation, gift-card and pop-up event state is exactly
unchanged, for every payload. -/
theorem webhook_invalid_signature (completed : Bool) (s : Session) (c : String)
    (st : ServerState) :
    processWebhook true false completed s c st = (400, st) := rfl

/-- Claim C2: processing a verified `checkout.session.completed` notification
is idempotent on the stores — running the handler a second time with an
identical payload (each run generating its own gift-card code) leaves
exactly the stored Reservation/GiftCard/PopupEvent state of the first run,
and at most one gift-card row ever exists per payment correlation (session)
id.  The one assumption is that the first run's randomly generated code is
fresh (does not collide with an already stored code), mirroring the
uniquely-generated-code contract. -/
theorem webhook_idempotent (st : ServerState) (s : Session) (c1 c2 sid0 : String)
    (hfresh : ∀ g ∈ st.giftCards, g.code ≠ c1) :
    (processWebhook true true true s c2
        (processWebhook true true true s c1 st).2).2 =
      (processWebhook true true true s c1 st).2 ∧
    (countGiftSession sid0 st.giftCards ≤ 1 →
      countGiftSession sid0 (processWebhook true true true s c1 st).2.giftCards ≤ 1) := by
  have hred : ∀ (c : String) (st' : ServerState),
      processWebhook true true true s c st' = handleCompleted s c st' := fun _ _ => rfl
  simp only [hred]
  by_cases hgift : s.mdType = some "gift_card"
  · by_cases hconf : giftConflict s c1 st.giftCards
    · rw [handleCompleted_gift_conflict s c1 st hgift hconf]
      have hconf2 : giftConflict s c2 st.giftCards := by
        obtain ⟨g, hg, hor⟩ := hconf
        rcases hor with hcode | hsid
        · exact absurd hcode (hfresh g hg)
        · exact ⟨g, hg, Or.inr hsid⟩
      constructor
      · show (handleCompleted s c2 st).2 = st
        rw [handleCompleted_gift_conflict s c2 st hgift hconf2]
      · exact fun h => h
    · rw [handleCompleted_gift_insert s c1 st hgift hconf]
      constructor
      · show (handleCompleted s c2 ({ st with
            giftCards := st.giftCards ++
              [giftRow s c1 (freshGiftCardId st.giftCards)] } : ServerState)).2 =
          ({ st with giftCards := st.giftCards ++
              [giftRow s c1 (freshGiftCardId st.giftCards)] } : ServerState)
        have hconf2 : giftConflict s c2 (st.giftCards ++
            [giftRow s c1 (freshGiftCardId st.giftCards)]) :=
          ⟨giftRow s c1 (freshGiftCardId st.giftCards),
            List.mem_append_right _ (by simp), Or.inr rfl⟩
        rw [handleCompleted_gift_conflict s c2 _ hgift hconf2]
      · intro h
        show countGiftSession sid0 (st.giftCards ++
            [giftRow s c1 (freshGiftCardId st.giftCards)]) ≤ 1
        unfold countGiftSession at h ⊢
        rw [List.countP_append]
        by_cases hsid : s.sessionId = sid0
        · have hz : st.giftCards.countP (fun g => decide (g.sessionId = some sid0)) = 0 := by
            rw [List.countP_eq_zero]
            intro g hg
            simp only [decide_eq_true_eq]
            intro hgs
            exact hconf ⟨g, hg, Or.inr (by rw [hgs, hsid])⟩
          have hone : (List.countP (fun g => decide (g.sessionId = some sid0))
              [giftRow s c1 (freshGiftCardId st.giftCards)]) ≤ 1 := by
            simp [List.countP_cons]
            split <;> omega
          omega
        · have hzero : (List.countP (fun g => decide (g.sessionId = some sid0))
              [giftRow s c1 (freshGiftCardId st.giftCards)]) = 0 := by
            simp [List.countP_cons, giftRow, hsid]
          omega
  · rcases hb : s.effBookingId with _ | b
    · rcases hd : s.eventDate with _ | d
      · rw [handleCompleted_plain s c1 st hgift hb hd]
        constructor
        · show (handleCompleted s c2
              ({ st with events := popupStep s st.events } : ServerState)).2 =
            ({ st with events := popupStep s st.events } : ServerState)
          rw [handleCompleted_plain s c2 _ hgift hb hd]
          rcases st with ⟨bk, gc, ev⟩
          simp [popupStep_idem]
        · exact fun h => h
      · rw [handleCompleted_fallback s c1 st d hgift hb hd]
        constructor
        · show (handleCompleted s c2 ({ st with
              bookings := upsertFallback s d st.bookings
              events := popupStep s st.events } : ServerState)).2 =
            ({ st with
              bookings := upsertFallback s d st.bookings
              events := popupStep s st.events } : ServerState)
          rw [handleCompleted_fallback s c2 _ d hgift hb hd]
          rcases st with ⟨bk, gc, ev⟩
          simp [upsertFallback_idem, popupStep_idem]
        · exact fun h => h
    · by_cases hconf : sessionConflict s b st.bookings
      · rw [handleCompleted_update_conflict s c1 st b hgift hb hconf]
        constructor
        · show (handleCompleted s c2 st).2 = st
          rw [handleCompleted_update_conflict s c2 st b hgift hb hconf]
        · exact fun h => h
      · rw [handleCompleted_update_ok s c1 st b hgift hb hconf]
        constructor
        · show (handleCompleted s c2 ({ st with
              bookings := updateBookings s b st.bookings
              events := popupStep s st.events } : ServerState)).2 =
            ({ st with
              bookings := updateBookings s b st.bookings
              events := popupStep s st.events } : ServerState)
          have hconf2 : ¬ sessionConflict s b (updateBookings s b st.bookings) :=
            fun hc => hconf ((sessionConflict_update_iff s b st.bookings).mp hc)
          rw [handleCompleted_update_ok s c2 _ b hgift hb hconf2]
          rcases st with ⟨bk, gc, ev⟩
          simp [updateBookings_idem, popupStep_idem]
        · exact fun h => h

theorem webhook_idempotent_witness :
    (∀ g ∈ (⟨[], [], []⟩ : ServerState).giftCards, g.code ≠ "CODE1") ∧
    ((processWebhook true true true
        ⟨"cs_1", some "gift_card", none, none, none, none, 10000, false,
          "Ann B", "ann@x.io", "", "", "", "", "", "", ""⟩ "CODE2"
        (processWebhook true true true
          ⟨"cs_1", some "gift_card", none, none, none, none, 10000, false,
            "Ann B", "ann@x.io", "", "", "", "", "", "", ""⟩ "CODE1"
          ⟨[], [], []⟩).2).2 =
      (processWebhook true true true
        ⟨"cs_1", some "gift_card", none, none, none, none, 10000, false,
          "Ann B", "ann@x.io", "", "", "", "", "", "", ""⟩ "CODE1"
        ⟨[], [], []⟩).2 ∧
    (countGiftSession "cs_1" (⟨[], [], []⟩ : ServerState).giftCards ≤ 1 →
      countGiftSession "cs_1"
        (processWebhook true true true
          ⟨"cs_1", some "gift_card", none, none, none, none, 10000, false,
            "Ann B", "ann@x.io", "", "", "", "", "", "", ""⟩ "CODE1"
          ⟨[], [], []⟩).2.giftCards ≤ 1)) :=
  ⟨by decide,
    webhook_idempotent ⟨[], [], []⟩
      ⟨"cs_1", some "gift_card", none, none, none, none, 10000, false,
        "Ann B", "ann@x.io", "", "", "", "", "", "", ""⟩
      "CODE1" "CODE2" "cs_1" (by decide)⟩

/-- Bookings stored for one payment correlation (session) id. -/
def countBookingSession (sid : String) (bs : List Booking) : Nat :=
  bs.countP fun r => decide (r.sessionId = some sid)

/-- Confirmed bookings stored for one payment correlation (session) id. -/
def countConfirmedSession (sid : String) (bs : List Booking) : Nat :=
  bs.countP fun r => decide (r.sessionId = some sid ∧ r.status = "confirmed")

/-- Claim C3 (counterexample): a verified notification whose metadata carries
booking id 5 — which does not exist in the (empty) store — and an event
date is processed "successfully" (200) yet yields ZERO confirmed
reservations for that payment, not exactly one: the fallback insert is
keyed on the metadata lacking a booking id, not on the referenced row being
absent, so the `UPDATE ... WHERE id=5` silently matches nothing. -/
theorem webhook_missing_booking_row :
    (processWebhook true true true
        ⟨"cs_x", none, some 5, some 10, none, none, 0, false,
          "", "", "", "", "", "", "", "", ""⟩ "C" ⟨[], [], []⟩).1 = 200 ∧
    countConfirmedSession "cs_x"
      (processWebhook true true true
        ⟨"cs_x", none, some 5, some 10, none, none, 0, false,
          "", "", "", "", "", "", "", "", ""⟩ "C" ⟨[], [], []⟩).2.bookings = 0 :=
  ⟨by decide, by decide⟩

/-- Claim C3 (amended): fallback synthesis is keyed on the metadata shape,
not on storage: a notification carrying a booking id that is absent from
storage confirms nothing (see the counterexample); a non-gift-card
notification carrying NO usable booking id but an event date — the pop-up /
legacy direct-purchase flow — always results in exactly one `confirmed`
reservation holding that payment's session id, whether a row for the
session already existed (upsert-update) or not (fresh insert), assuming the
UNIQUE-constraint invariant of at most one stored row per session id. -/
theorem webhook_fallback_synthesis (st : ServerState) (s : Session) (c : String)
    (d : Nat) (hgift : s.mdType ≠ some "gift_card") (hb : s.effBookingId = none)
    (hd : s.eventDate = some d)
    (huniq : countBookingSession s.sessionId st.bookings ≤ 1) :
    countConfirmedSession s.sessionId
      (processWebhook true true true s c st).2.bookings = 1 := by
  have hred : processWebhook true true true s c st = handleCompleted s c st := rfl
  rw [hred, handleCompleted_fallback s c st d hgift hb hd]
  show countConfirmedSession s.sessionId (upsertFallback s d st.bookings) = 1
  unfold countConfirmedSession upsertFallback
  by_cases hex : ∃ r ∈ st.bookings, r.sessionId = some s.sessionId
  · rw [if_pos hex]
    have heq : List.countP
        (fun r => decide (r.sessionId = some s.sessionId ∧ r.status = "confirmed"))
        (st.bookings.map fun r =>
          if r.sessionId = some s.sessionId then { r with status := "confirmed" }
          else r) =
        List.countP (fun r => decide (r.sessionId = some s.sessionId)) st.bookings := by
      rw [List.countP_map]
      apply List.countP_congr
      intro r _
      simp only [Function.comp_apply]
      by_cases h : r.sessionId = some s.sessionId
      · rw [if_pos h]; simp [h]
      · rw [if_neg h]; simp [h]
    rw [heq]
    have hpos : 0 < List.countP
        (fun r => decide (r.sessionId = some s.sessionId)) st.bookings := by
      rw [List.countP_pos_iff]
      obtain ⟨r, hr, hrs⟩ := hex
      exact ⟨r, hr, by simp [hrs]⟩
    unfold countBookingSession at huniq
    omega
  · rw [if_neg hex]
    rw [List.countP_append]
    have hz : List.countP
        (fun r => decide (r.sessionId = some s.sessionId ∧ r.status = "confirmed"))
        st.bookings = 0 := by
      rw [List.countP_eq_zero]
      intro r hr
      simp only [decide_eq_true_eq]
      rintro ⟨hrs, _⟩
      exact hex ⟨r, hr, hrs⟩
    have hone : List.countP
        (fun r => decide (r.sessionId = some s.sessionId ∧ r.status = "confirmed"))
        [fallbackRow s (freshBookingId st.bookings) d] = 1 := by
      simp [List.countP_cons, fallbackRow]
    omega

theorem webhook_fallback_synthesis_witness :
    ((⟨"cs_p", none, none, some 12, some "ev1", some 2, 0, false,
        "Bo", "bo@x.io", "", "", "", "", "", "", ""⟩ : Session).mdType ≠
        some "gift_card" ∧
      (⟨"cs_p", none, none, some 12, some "ev1", some 2, 0, false,
        "Bo", "bo@x.io", "", "", "", "", "", "", ""⟩ : Session).effBookingId = none ∧
      countBookingSession "cs_p" ([] : List Booking) ≤ 1) ∧
    countConfirmedSession "cs_p"
      (processWebhook true true true
        ⟨"cs_p", none, none, some 12, some "ev1", some 2, 0, false,
          "Bo", "bo@x.io", "", "", "", "", "", "", ""⟩ "C" ⟨[], [], []⟩).2.bookings = 1 :=
  ⟨⟨by decide, by decide, by decide⟩,
    webhook_fallback_synthesis ⟨[], [], []⟩
      ⟨"cs_p", none, none, some 12, some "ev1", some 2, 0, false,
        "Bo", "bo@x.io", "", "", "", "", "", "", ""⟩
      "C" 12 (by decide) (by decide) (by decide) (by decide)⟩

/-- Claim C1 (counterexample): no create/confirm operation checks for
overlap.  Starting from the empty store (which satisfies the invariant),
two successive admin manual bookings for the same day 5 — both immediately
`confirmed` — produce two distinct confirmed reservations with identical
overlapping ranges `[5,6)`, violating the no-overlap invariant from a
reachable state. -/
theorem admin_double_booking :
    noOverlapConfirmed ([] : List Booking) ∧
    ¬ noOverlapConfirmed
        (adminCreateBooking 5 "b" "b@x" (adminCreateBooking 5 "a" "a@x" [])) :=
  ⟨by decide, by decide⟩

/-- Claim C1 (amended): none of the three operations (admin manual-booking
creation, webhook confirmation UPDATE, webhook fallback upsert) checks for
overlap; each preserves the no-overlap invariant only under the side
condition that the newly confirmed date range does not overlap any other
reservation that is (or simultaneously becomes) confirmed — and without
that side condition the invariant can be violated (see the
counterexample). -/
theorem noOverlap_ops_conditional (bs : List Booking) (s : Session) (b d : Nat)
    (name email : String) :
    ((noOverlapConfirmed bs ∧
        ∀ r ∈ bs, r.status = "confirmed" →
          ¬ rangesOverlap r.startAt r.endAt d (d + 1)) →
      noOverlapConfirmed (adminCreateBooking d name email bs)) ∧
    ((bs.Pairwise fun a c =>
        (a.id = b ∨ a.status = "confirmed") →
        (c.id = b ∨ c.status = "confirmed") → ¬ overlapB a c) →
      noOverlapConfirmed (updateBookings s b bs)) ∧
    (((bs.Pairwise fun a c =>
        (a.sessionId = some s.sessionId ∨ a.status = "confirmed") →
        (c.sessionId = some s.sessionId ∨ c.status = "confirmed") →
          ¬ overlapB a c) ∧
        ∀ r ∈ bs, r.status = "confirmed" →
          ¬ rangesOverlap r.startAt r.endAt d (d + 1)) →
      noOverlapConfirmed (upsertFallback s d bs)) := by
  refine ⟨?_, ?_, ?_⟩
  · rintro ⟨hno, hnew⟩
    unfold adminCreateBooking noOverlapConfirmed
    rw [List.pairwise_append]
    refine ⟨hno, by simp, ?_⟩
    intro a ha r hr hconf hconf2
    simp only [List.mem_singleton] at hr
    subst hr
    intro hov
    exact hnew a ha hconf ⟨hov.1, hov.2⟩
  · intro hpw
    unfold noOverlapConfirmed updateBookings
    rw [List.pairwise_map]
    refine List.Pairwise.imp ?_ hpw
    intro a c hR hfa hfc hov
    have ha' : a.id = b ∨ a.status = "confirmed" := by
      by_cases h : a.id = b
      · exact Or.inl h
      · right
        rw [if_neg h] at hfa
        exact hfa
    have hc' : c.id = b ∨ c.status = "confirmed" := by
      by_cases h : c.id = b
      · exact Or.inl h
      · right
        rw [if_neg h] at hfc
        exact hfc
    apply hR ha' hc'
    have hsa : (if a.id = b then applyConfirm s a else a).startAt = a.startAt := by
      by_cases h : a.id = b
      · rw [if_pos h]; rfl
      · rw [if_neg h]
    have hea : (if a.id = b then applyConfirm s a else a).endAt = a.endAt := by
      by_cases h : a.id = b
      · rw [if_pos h]; rfl
      · rw [if_neg h]
    have hsc : (if c.id = b then applyConfirm s c else c).startAt = c.startAt := by
      by_cases h : c.id = b
      · rw [if_pos h]; rfl
      · rw [if_neg h]
    have hec : (if c.id = b then applyConfirm s c else c).endAt = c.endAt := by
      by_cases h : c.id = b
      · rw [if_pos h]; rfl
      · rw [if_neg h]
    unfold overlapB at hov ⊢
    rw [hsa, hea, hsc, hec] at hov
    exact hov
  · rintro ⟨hpw, hnew⟩
    unfold upsertFallback
    by_cases hex : ∃ r ∈ bs, r.sessionId = some s.sessionId
    · rw [if_pos hex]
      unfold noOverlapConfirmed
      rw [List.pairwise_map]
      refine List.Pairwise.imp ?_ hpw
      intro a c hR hfa hfc hov
      have ha' : a.sessionId = some s.sessionId ∨ a.status = "confirmed" := by
        by_cases h : a.sessionId = some s.sessionId
        · exact Or.inl h
        · right
          rw [if_neg h] at hfa
          exact hfa
      have hc' : c.sessionId = some s.sessionId ∨ c.status = "confirmed" := by
        by_cases h : c.sessionId = some s.sessionId
        · exact Or.inl h
        · right
          rw [if_neg h] at hfc
          exact hfc
      apply hR ha' hc'
      have hsa : (if a.sessionId = some s.sessionId then
          ({ a with status := "confirmed" } : Booking) else a).startAt = a.startAt := by
        by_cases h : a.sessionId = some s.sessionId
        · rw [if_pos h]
        · rw [if_neg h]
      have hea : (if a.sessionId = some s.sessionId then
          ({ a with status := "confirmed" } : Booking) else a).endAt = a.endAt := by
        by_cases h : a.sessionId = some s.sessionId
        · rw [if_pos h]
        · rw [if_neg h]
      have hsc : (if c.sessionId = some s.sessionId then
          ({ c with status := "confirmed" } : Booking) else c).startAt = c.startAt := by
        by_cases h : c.sessionId = some s.sessionId
        · rw [if_pos h]
        · rw [if_neg h]
      have hec : (if c.sessionId = some s.sessionId then
          ({ c with status := "confirmed" } : Booking) else c).endAt = c.endAt := by
        by_cases h : c.sessionId = some s.sessionId
        · rw [if_pos h]
        · rw [if_neg h]
      unfold overlapB at hov ⊢
      rw [hsa, hea, hsc, hec] at hov
      exact hov
    · rw [if_neg hex]
      unfold noOverlapConfirmed
      rw [List.pairwise_append]
      refine ⟨?_, by simp, ?_⟩
      · refine List.Pairwise.imp ?_ hpw
        intro a c hR hca hcc
        exact hR (Or.inr hca) (Or.inr hcc)
      · intro a ha r hr hconf _
        simp only [List.mem_singleton] at hr
        subst hr
        intro hov
        exact hnew a ha hconf ⟨hov.1, hov.2⟩

theorem noOverlap_ops_conditional_witness :
    noOverlapConfirmed
      (adminCreateBooking 7 "n" "e@x"
        [⟨1, 3, 4, "confirmed", "a", "a@x", none, none, none, none, none, none,
          none⟩]) ∧
    noOverlapConfirmed
      (updateBookings
        ⟨"cs_9", none, some 1, none, none, none, 0, false,
          "N", "n@x", "", "", "", "", "", "", ""⟩ 1
        [⟨1, 3, 4, "confirmed", "a", "a@x", none, none, none, none, none, none,
          none⟩]) ∧
    noOverlapConfirmed
      (upsertFallback
        ⟨"cs_9", none, some 1, none, none, none, 0, false,
          "N", "n@x", "", "", "", "", "", "", ""⟩ 7
        [⟨1, 3, 4, "confirmed", "a", "a@x", none, none, none, none, none, none,
          none⟩]) :=
  ⟨(noOverlap_ops_conditional
      [⟨1, 3, 4, "confirmed", "a", "a@x", none, none, none, none, none, none, none⟩]
      ⟨"cs_9", none, some 1, none, none, none, 0, false,
        "N", "n@x", "", "", "", "", "", "", ""⟩ 1 7 "n" "e@x").1
      ⟨by decide, by decide⟩,
    (noOverlap_ops_conditional
      [⟨1, 3, 4, "confirmed", "a", "a@x", none, none, none, none, none, none, none⟩]
      ⟨"cs_9", none, some 1, none, none, none, 0, false,
        "N", "n@x", "", "", "", "", "", "", ""⟩ 1 7 "n" "e@x").2.1
      (by decide),
    (noOverlap_ops_conditional
      [⟨1, 3, 4, "confirmed", "a", "a@x", none, none, none, none, none, none, none⟩]
      ⟨"cs_9", none, some 1, none, none, none, 0, false,
        "N", "n@x", "", "", "", "", "", "", ""⟩ 1 7 "n" "e@x").2.2
      ⟨by decide, by decide⟩⟩
